import Mathlib

/-!
Shallow embedding of the zCloak-keeper pipeline (event scanner, verifier
stage, submitter stage, kilt attestation query, and the queue-payload JSON
encoding) used to settle the specification claims.

Machine integers are modelled as `Nat` (block numbers are `u64` / web3 `U64`;
bytes are `u8` values `< 256`); fallible operations return `Except`; the
external chains / queues appear as explicit oracles or state-threading
parameters.
-/

namespace ZCloak

/-- `[u8; 32]` from `src/primitives/src/lib.rs` (`pub type Bytes32 = [u8; 32]`);
modelled as a list of byte values (each `< 256`, length 32 where it matters). -/
abbrev Bytes32 := List Nat

/-- web3 `Address` (`H160`, 20 bytes), modelled as a list of byte values. -/
abbrev Address := List Nat

/-! ## Kilt attestation query (`src/supports/support-kilt-node/src/lib.rs`) -/

/-- The attestation record read from kilt storage.  The `kilt` module of
`keeper_primitives` is not under `src/`; the fields are the ones the sources
use: `ctype_hash`, `attester` (both 32-byte hashes) and `revoked`
(`detail.revoked` in `query_attestation`, `attest.revoked` /
`attest.ctype_hash` / `attest.attester` in `update_from_attestation`). -/
structure Attestation where
  ctype_hash : Bytes32
  attester : Bytes32
  revoked : Bool
deriving DecidableEq, Repr

/-- Classification of a `subxt::Error` as matched by `query_attestation`:
`Error::Rpc(jsonrpsee_types::Error::RequestTimeout)` is the only retried
shape; any other RPC error and any non-RPC error fall through to the
immediate-return arm. -/
inductive SubxtError where
  | rpcRequestTimeout
  | rpcOther
  | nonRpc
deriving DecidableEq, Repr

/-- Outcome of one `api.storage().attestation().attestations(root_hash, None)`
read. -/
inductive ReadOutcome where
  | ok (details : Option Attestation)
  | err (e : SubxtError)
deriving DecidableEq, Repr

/-- `MAX_RETRY_TIMES` from `query_attestation`. -/
def MAX_RETRY_TIMES : Nat := 5

/-- The retry loop of `query_attestation`.  The source keeps a counter
`times`, retries a timeout only while `times < MAX_RETRY_TIMES`, and
increments it on each retry; here `fuel = MAX_RETRY_TIMES - times`, so
`times < MAX_RETRY_TIMES` is `fuel > 0` and `times += 1` is the structural
decrement.  `reads j` is the outcome of the `j`-th storage read (the chain is
an oracle indexed by attempt number); the second component returned is the
total number of reads performed. -/
def queryLoop (reads : Nat → ReadOutcome) : Nat → Nat → Except SubxtError (Option Attestation) × Nat
  | fuel, i =>
    match reads i with
    | .ok details => (.ok details, i + 1)
    | .err e =>
      match e with
      | .rpcRequestTimeout =>
        match fuel with
        | f + 1 => queryLoop reads f (i + 1)
        | 0 => (.error e, i + 1)
      | _ => (.error e, i + 1)

/-- `maybe_attestation_details.map_or_else(|| false, |detail| !detail.revoked)`. -/
def attestationIsValid (details : Option Attestation) : Bool :=
  details.elim false (fun detail => !detail.revoked)

/-- `query_attestation` (client construction elided): run the bounded-retry
storage read, then map the resulting `Option` attestation to validity.
Returns the result together with the number of storage reads performed. -/
def query_attestation (reads : Nat → ReadOutcome) : Except SubxtError Bool × Nat :=
  match queryLoop reads MAX_RETRY_TIMES 0 with
  | (.ok details, n) => (.ok (attestationIsValid details), n)
  | (.error e, n) => (.error e, n)

/-! ## VerifyResult and the attestation gate (`src/primitives/src/lib.rs`) -/

/-- `VerifyResult` from `src/primitives/src/lib.rs`. -/
structure VerifyResult where
  number : Nat
  data_owner : Address
  root_hash : Bytes32
  c_type : Bytes32
  program_hash : Bytes32
  request_hash : Bytes32
  attester : Bytes32
  is_passed : Bool
deriving DecidableEq, Repr

instance : Inhabited VerifyResult :=
  ⟨⟨0, List.replicate 20 0, List.replicate 32 0, List.replicate 32 0,
    List.replicate 32 0, List.replicate 32 0, List.replicate 32 0, false⟩⟩

/-- `VerifyResult::update_from_attestation`: if the attestation is not
revoked, overwrite `c_type` and `attester` from it; if revoked, do nothing
and return the error.  The Rust method mutates `self`; here the updated
record is returned. -/
def VerifyResult.update_from_attestation (v : VerifyResult) (attest : Attestation) :
    Except Unit VerifyResult :=
  if !attest.revoked then
    .ok { v with c_type := attest.ctype_hash, attester := attest.attester }
  else
    .error ()

/-- Modelled from the spec: the per-event verification outcome of the
verifier stage (`query_and_verify`, whose body is not under `src/`).  Spec
§4.3: the proof check produces a boolean pass/fail and the stage
"independently confirm[s] attestation validity via the Attestation Oracle
keyed by `root_hash` — a revoked attestation forces fail regardless of the
proof result"; the in-repo pieces are `attestationIsValid` and
`VerifyResult.update_from_attestation`. -/
def verifierOutcome (proofPassed : Bool) (details : Option Attestation) : Bool :=
  proofPassed && attestationIsValid details

/-! ## ProofEvent (`src/primitives/src/lib.rs`) -/

/-- `ProofEvent` from `src/primitives/src/lib.rs`.  `field_name` and
`proof_cid` are Rust `String`s. -/
structure ProofEvent where
  data_owner : Address
  kilt_address : Bytes32
  attester : Bytes32
  c_type : Bytes32
  program_hash : Bytes32
  field_name : String
  proof_cid : String
  request_hash : Bytes32
  root_hash : Bytes32
  expect_result : Bool
deriving DecidableEq, Repr

/-- `ProofEvent::default()`: `Address`/`Bytes32` fields all-zero, empty
strings, `expect_result = false`. -/
def ProofEvent.default0 : ProofEvent :=
  { data_owner := List.replicate 20 0
    kilt_address := List.replicate 32 0
    attester := List.replicate 32 0
    c_type := List.replicate 32 0
    program_hash := List.replicate 32 0
    field_name := ""
    proof_cid := ""
    request_hash := List.replicate 32 0
    root_hash := List.replicate 32 0
    expect_result := false }

instance : Inhabited ProofEvent := ⟨ProofEvent.default0⟩

/-! ## Event scanner (`src/moonbeam/src/lib.rs`, `scan_events`) -/

/-- The `keeper_primitives::moonbeam::ProofEvent` used by the scanner carries
an optional block number attached after construction
(`proof_event.set_block_number(number)`; that module is not under `src/`,
spec §3: "plus an optional block number attached post-construction").
Modelled as a pair of the primitive event and the optional number. -/
structure ScanProofEvent where
  event : ProofEvent
  block_number : Option Nat
deriving DecidableEq, Repr

/-- `set_block_number` (modelled from the spec, the method lives in the
missing `keeper_primitives::moonbeam` module): attach the log's optional
block number to the event. -/
def setBlockNumber (event : ProofEvent) (number : Option Nat) : ScanProofEvent :=
  ⟨event, number⟩

/-- The `start` pointer after the defensive clamp at the top of
`scan_events`: `if start > best { start = best }`. -/
def clampStart (start best : Nat) : Nat :=
  if start > best then best else start

/-- The scan window end: `let end = if start + span > best { best } else
{ start + span }`, computed after the clamp; `span` is
`MOONBEAM_SCAN_SPAN` (a constant of the missing `keeper_primitives` crate,
kept as a parameter). -/
def scanEnd (span start best : Nat) : Nat :=
  if clampStart start best + span > best then best
  else clampStart start best + span

/-- `scan_events`: clamp `start`, compute `end`, query the event log over
`[start, end]` (the RPC is the oracle `eventsRpc`, returning decoded
`(ProofEvent, log-block-number)` pairs as `moonbeam::utils::events` does);
an RPC/parse error returns `Err((Some(start), err))`; otherwise attach each
log's block number and return `(Some(events), end)` when any matched, else
`(None, end)`. -/
def scan_events {E : Type} (span start best : Nat)
    (eventsRpc : Nat → Nat → Except E (List (ProofEvent × Option Nat))) :
    Except (Option Nat × E) (Option (List ScanProofEvent) × Nat) :=
  match eventsRpc (clampStart start best) (scanEnd span start best) with
  | .error err => .error (some (clampStart start best), err)
  | .ok res =>
    if res.length ≠ 0 then
      .ok (some (res.map (fun p => setBlockNumber p.1 p.2)), scanEnd span start best)
    else
      .ok (none, scanEnd span start best)

/-! ## Submitter (`src/moonbeam/src/lib.rs`, `submit_txs`) -/

/-- The moonbeam chain as seen by `submit_txs`: the two guard reads
(`contract.query(SUBMIT_STATUS_QUERY, (keeper_address, v.data_owner,
v.request_hash), ...)` and `contract.query(IS_FINISHED, (v.data_owner,
v.request_hash), ...)`) and the state-changing submission
(`contract.signed_call_with_confirmations(SUBMIT_VERIFICATION, ...)`).
`S` is the opaque chain state; reads leave it unchanged, a successful
submission yields the successor state. -/
structure MoonbeamChain (S E : Type) where
  hasSubmitted : S → Address → Address → Bytes32 → Except E Bool
  isFinished : S → Address → Bytes32 → Except E Bool
  submit : S → VerifyResult → Except E S

/-- `submit_txs`: process the batch in order; for each result read
`hasSubmitted(keeper, data_owner, request_hash)` then
`isFinished(data_owner, request_hash)`; submit only if both are false,
skipping otherwise; any read or submit failure returns
`Err((Some(v.number), e))` immediately (the source's error tuple converts
`v.number` into the `Option<U64>` slot).  The first component of the result
is the list of verify-results for which a submission transaction was
attempted, in order; the second is the source function's return value (with
the final chain state on success). -/
def submit_txs {S E : Type} (chain : MoonbeamChain S E) (keeper_address : Address) :
    List VerifyResult → S → List VerifyResult × Except (Option Nat × E) S
  | [], s => ([], .ok s)
  | v :: rest, s =>
    match chain.hasSubmitted s keeper_address v.data_owner v.request_hash with
    | .error e => ([], .error (some v.number, e))
    | .ok has_submitted =>
      match chain.isFinished s v.data_owner v.request_hash with
      | .error e => ([], .error (some v.number, e))
      | .ok is_finished =>
        if !has_submitted && !is_finished then
          match chain.submit s v with
          | .error e => ([v], .error (some v.number, e))
          | .ok s2 =>
            let r := submit_txs chain keeper_address rest s2
            (v :: r.1, r.2)
        else
          submit_txs chain keeper_address rest s

/-! ## Verifier stage (`src/ipfs/src/task.rs`, `task_verify`) -/

/-- One loop iteration of `task_verify` for a received message, after the
`recv_timeout` yielded a message.  The stages are the source's, in order:
`EventResult::try_from_bytes` (its result on this message is `parse`),
`query_and_verify` (oracle `verify`, erring with a block number),
`serde_json::to_vec` (oracle `serialize`), `msg_queue.0.send` (oracle
`send`), and on send success `events.commit()` (oracle `commit`).  The
boolean returned alongside records whether `commit` was invoked on the
inbound message. -/
def taskVerifyStep {ER VR Bytes E : Type}
    (parse : Except E ER)
    (verify : ER → Except (Nat × E) (List VR))
    (serialize : List VR → Except E Bytes)
    (send : Bytes → Except E Unit)
    (commit : Except E Unit) :
    Bool × Except (Option Nat × E) Unit :=
  match parse with
  | .error e => (false, .error (none, e))
  | .ok inputs =>
    match verify inputs with
    | .error be => (false, .error (some be.1, be.2))
    | .ok res =>
      match serialize res with
      | .error e => (false, .error (none, e))
      | .ok bytes =>
        match send bytes with
        | .error e => (false, .error (none, e))
        | .ok _ =>
          match commit with
          | .error e => (true, .error (none, e))
          | .ok _ => (true, .ok ())

/-! ## `ProofEvent::public_inputs` (`src/primitives/src/lib.rs`) -/

/-- UTF-8 encoding of one character: a Rust `String` stores UTF-8 bytes, and
`hex::encode(&self.field_name)` encodes exactly those bytes. -/
def utf8Bytes (c : Char) : List Nat :=
  let n := c.toNat
  if n < 0x80 then [n]
  else if n < 0x800 then [0xC0 + n / 64, 0x80 + n % 64]
  else if n < 0x10000 then [0xE0 + n / 4096, 0x80 + n / 64 % 64, 0x80 + n % 64]
  else [0xF0 + n / 262144, 0x80 + n / 4096 % 64, 0x80 + n / 64 % 64, 0x80 + n % 64]

/-- The byte content of a Rust `String`. -/
def strBytes (s : String) : List Nat :=
  s.data.bind utf8Bytes

/-- Lowercase hex digit for a value `< 16` (the alphabet `hex::encode` and
`serde_json` use). -/
def hexDigitChar (n : Nat) : Char :=
  if n < 10 then Char.ofNat (48 + n) else Char.ofNat (87 + n)

/-- `hex::encode`: two lowercase hex digits per byte. -/
def hexEncodeChars (bytes : List Nat) : List Char :=
  bytes.bind (fun b => [hexDigitChar (b / 16), hexDigitChar (b % 16)])

/-- Value of one hex digit as `u128::from_str_radix(_, 16)` accepts it
(decimal digits, lowercase and uppercase letters). -/
def hexDigitVal (c : Char) : Option Nat :=
  if 48 ≤ c.toNat ∧ c.toNat ≤ 57 then some (c.toNat - 48)
  else if 97 ≤ c.toNat ∧ c.toNat ≤ 102 then some (c.toNat - 87)
  else if 65 ≤ c.toNat ∧ c.toNat ≤ 70 then some (c.toNat - 55)
  else none

/-- `u128::MAX + 1`. -/
def U128_MOD : Nat := 2 ^ 128

/-- The digit fold of `u128::from_str_radix(s, 16)`: per digit, a checked
multiply by the radix then a checked add of the digit value, failing
(`None`) on a non-digit character or when a checked step exceeds
`u128::MAX`. -/
def fromStrRadix16Go : List Char → Nat → Option Nat
  | [], acc => some acc
  | c :: cs, acc =>
    match hexDigitVal c with
    | none => none
    | some d =>
      if U128_MOD ≤ acc * 16 then none
      else if U128_MOD ≤ acc * 16 + d then none
      else fromStrRadix16Go cs (acc * 16 + d)

/-- `u128::from_str_radix(s, 16)`: an empty input fails; a leading `+` is
stripped but must leave at least one digit; then the checked digit fold. -/
def fromStrRadix16 (s : List Char) : Option Nat :=
  match s with
  | [] => none
  | c :: cs =>
    if c = '+' then
      match cs with
      | [] => none
      | _ => fromStrRadix16Go cs 0
    else
      fromStrRadix16Go s 0

/-- `ProofEvent::public_inputs`: hex-encode `field_name` and parse the hex
string back as a `u128`; the `.expect("filed_name from event must be fit
into u128 range")` panic is modelled as `none`, a normal return of
`vec![r]` as `some [r]`. -/
def ProofEvent.public_inputs (e : ProofEvent) : Option (List Nat) :=
  (fromStrRadix16 (hexEncodeChars (strBytes e.field_name))).map (fun r => [r])

/-- Big-endian integer value of a byte string (the specification-side value
`public_inputs` computes). -/
def beVal (bytes : List Nat) : Nat :=
  bytes.foldl (fun acc b => acc * 256 + b) 0

/-! ## Queue payload JSON encoding
(`serde_json` over `EventResult`, `src/primitives/src/lib.rs` lines 131-141).
The JSON model covers the fragment these payload types inhabit: objects,
arrays, strings, booleans, `null`, and unsigned integer numbers. -/

inductive Json where
  | null
  | jbool (b : Bool)
  | num (n : Nat)
  | str (s : String)
  | arr (items : List Json)
  | obj (fields : List (String × Json))

/-- serde_json string escaping: `"` and `\` get a backslash, control
characters use the short forms or `\u00XX`, everything else is emitted
verbatim. -/
def escapeChar (c : Char) : List Char :=
  if c = '"' then ['\\', '"']
  else if c = '\\' then ['\\', '\\']
  else if c.toNat = 8 then ['\\', 'b']
  else if c.toNat = 9 then ['\\', 't']
  else if c.toNat = 10 then ['\\', 'n']
  else if c.toNat = 12 then ['\\', 'f']
  else if c.toNat = 13 then ['\\', 'r']
  else if c.toNat < 32 then ['\\', 'u', '0', '0', hexDigitChar (c.toNat / 16), hexDigitChar (c.toNat % 16)]
  else [c]

def escapeString (s : String) : String :=
  String.mk (s.data.bind escapeChar)

mutual

/-- `serde_json::to_vec`'s compact printing of a JSON value. -/
def printJson : Json → String
  | .null => "null"
  | .jbool true => "true"
  | .jbool false => "false"
  | .num n => Nat.repr n
  | .str s => "\"" ++ escapeString s ++ "\""
  | .arr items => "[" ++ printItems items ++ "]"
  | .obj fields => "\x7b" ++ printFields fields ++ "\x7d"

def printItems : List Json → String
  | [] => ""
  | [x] => printJson x
  | x :: y :: xs => printJson x ++ "," ++ printItems (y :: xs)

def printFields : List (String × Json) → String
  | [] => ""
  | [kv] => "\"" ++ escapeString kv.1 ++ "\":" ++ printJson kv.2
  | kv :: kv2 :: xs =>
    "\"" ++ escapeString kv.1 ++ "\":" ++ printJson kv.2 ++ "," ++ printFields (kv2 :: xs)

end

/-- web3 `U64` serde serialization: `0x` followed by the minimal lowercase
hex digits of the value. -/
def natToHexString (n : Nat) : String :=
  String.mk ('0' :: 'x' :: Nat.toDigits 16 n)

/-- web3 `Address` (`H160`) serde serialization: `0x` plus 40 lowercase hex
digits, two per byte. -/
def addressToString (a : Address) : String :=
  String.mk ('0' :: 'x' :: hexEncodeChars a)

/-- `[u8; N]` serde serialization: a JSON array of decimal byte values. -/
def bytesToJson (bytes : List Nat) : Json :=
  .arr (bytes.map Json.num)

/-- Derived `Serialize` for `ProofEvent`: an object with the struct's fields
in declaration order. -/
def ProofEvent.toJson (e : ProofEvent) : Json :=
  .obj [("data_owner", .str (addressToString e.data_owner)),
        ("kilt_address", bytesToJson e.kilt_address),
        ("attester", bytesToJson e.attester),
        ("c_type", bytesToJson e.c_type),
        ("program_hash", bytesToJson e.program_hash),
        ("field_name", .str e.field_name),
        ("proof_cid", .str e.proof_cid),
        ("request_hash", bytesToJson e.request_hash),
        ("root_hash", bytesToJson e.root_hash),
        ("expect_result", .jbool e.expect_result)]

/-- `EventResult = BTreeMap<U64, Vec<ProofEvent>>`, modelled as an
association list in strictly increasing key order (the order a `BTreeMap`
iterates, and therefore serializes, in). -/
abbrev EventResult := List (Nat × List ProofEvent)

/-- `Serialize` for `EventResult`: an object whose keys are the `0x`-hex
block numbers in map order and whose values are the event arrays. -/
def EventResult.toJson (er : EventResult) : Json :=
  .obj (er.map (fun kv => (natToHexString kv.1, Json.arr (kv.2.map ProofEvent.toJson))))

/-- `JsonParse::into_bytes` for `EventResult` (`serde_json::to_vec`); the
returned byte vector is the UTF-8 of this string. -/
def EventResult.into_bytes (er : EventResult) : String :=
  printJson (EventResult.toJson er)

/-! ### JSON parsing (`serde_json::from_slice`) -/

def isWs (c : Char) : Bool :=
  c = ' ' || c.toNat = 9 || c.toNat = 10 || c.toNat = 13

def skipWs : List Char → List Char
  | [] => []
  | c :: cs => if isWs c then skipWs cs else c :: cs

/-- Inverse of the short escapes `serde_json` understands (the `\uXXXX`
form never appears in these payloads and is left unmodelled). -/
def unescapeChar (c : Char) : Option Char :=
  if c = '"' then some '"'
  else if c = '\\' then some '\\'
  else if c = '/' then some '/'
  else if c = 'b' then some (Char.ofNat 8)
  else if c = 't' then some (Char.ofNat 9)
  else if c = 'n' then some (Char.ofNat 10)
  else if c = 'f' then some (Char.ofNat 12)
  else if c = 'r' then some (Char.ofNat 13)
  else none

/-- Parse a JSON string body (the opening quote already consumed), returning
the unescaped content and the remaining input. -/
def parseStringBody : List Char → Option (List Char × List Char)
  | [] => none
  | c :: cs =>
    if c = '"' then some ([], cs)
    else if c = '\\' then
      match cs with
      | [] => none
      | e :: cs2 =>
        match unescapeChar e with
        | none => none
        | some d =>
          match parseStringBody cs2 with
          | none => none
          | some (rest, rem) => some (d :: rest, rem)
    else
      match parseStringBody cs with
      | none => none
      | some (rest, rem) => some (c :: rest, rem)

def digitVal (c : Char) : Option Nat :=
  if 48 ≤ c.toNat ∧ c.toNat ≤ 57 then some (c.toNat - 48) else none

def parseNatDigits : List Char → Nat → Nat × List Char
  | [], acc => (acc, [])
  | c :: cs, acc =>
    match digitVal c with
    | some d => parseNatDigits cs (acc * 10 + d)
    | none => (acc, c :: cs)

/-- Parse a nonnegative JSON integer (the only numeric shape these payloads
contain). -/
def parseNumber : List Char → Option (Nat × List Char)
  | [] => none
  | c :: cs =>
    match digitVal c with
    | none => none
    | some d => some (parseNatDigits cs d)

mutual

/-- Parse one JSON value; `fuel` bounds the recursion depth and is sized
from the input length at the top entry point. -/
def parseValue : Nat → List Char → Option (Json × List Char)
  | 0, _ => none
  | fuel + 1, cs =>
    match skipWs cs with
    | [] => none
    | c :: rest =>
      if c = 'n' then
        match rest with
        | 'u' :: 'l' :: 'l' :: rem => some (.null, rem)
        | _ => none
      else if c = 't' then
        match rest with
        | 'r' :: 'u' :: 'e' :: rem => some (.jbool true, rem)
        | _ => none
      else if c = 'f' then
        match rest with
        | 'a' :: 'l' :: 's' :: 'e' :: rem => some (.jbool false, rem)
        | _ => none
      else if c = '"' then
        match parseStringBody rest with
        | some (s, rem) => some (.str (String.mk s), rem)
        | none => none
      else if c = '[' then
        match skipWs rest with
        | ']' :: rem => some (.arr [], rem)
        | cs2 => (parseItems fuel cs2).map (fun p => (Json.arr p.1, p.2))
      else if c = '\x7b' then
        match skipWs rest with
        | '\x7d' :: rem => some (.obj [], rem)
        | cs2 => (parseFields fuel cs2).map (fun p => (Json.obj p.1, p.2))
      else
        (parseNumber (c :: rest)).map (fun p => (Json.num p.1, p.2))

/-- Parse the comma-separated items of a non-empty array up to `]`. -/
def parseItems : Nat → List Char → Option (List Json × List Char)
  | 0, _ => none
  | fuel + 1, cs =>
    match parseValue fuel cs with
    | none => none
    | some (v, rem) =>
      match skipWs rem with
      | ',' :: rem2 =>
        match parseItems fuel rem2 with
        | some (vs, rem3) => some (v :: vs, rem3)
        | none => none
      | ']' :: rem2 => some ([v], rem2)
      | _ => none

/-- Parse the `"key":value` entries of a non-empty object up to the closing
brace. -/
def parseFields : Nat → List Char → Option (List (String × Json) × List Char)
  | 0, _ => none
  | fuel + 1, cs =>
    match skipWs cs with
    | '"' :: rest =>
      match parseStringBody rest with
      | none => none
      | some (k, rem) =>
        match skipWs rem with
        | ':' :: rem2 =>
          match parseValue fuel rem2 with
          | none => none
          | some (v, rem3) =>
            match skipWs rem3 with
            | ',' :: rem4 =>
              match parseFields fuel rem4 with
              | some (fs, rem5) => some ((String.mk k, v) :: fs, rem5)
              | none => none
            | '\x7d' :: rem4 => some ([(String.mk k, v)], rem4)
            | _ => none
        | _ => none
    | _ => none

end

/-- Parse a complete JSON document: one value followed only by
whitespace. -/
def parseJson (s : String) : Option Json :=
  match parseValue (2 * s.data.length + 2) s.data with
  | some (v, rem) => if skipWs rem = [] then some v else none
  | none => none

/-! ### Typed deserialization (derived `Deserialize` impls) -/

/-- Field access in a derived `Deserialize`: fields may arrive in any order;
take the named field's value. -/
def jField (fields : List (String × Json)) (name : String) : Option Json :=
  (fields.find? (fun kv => kv.1 == name)).map (fun kv => kv.2)

/-- `u8`: a JSON number in `0..=255`. -/
def jByte : Json → Option Nat
  | .num n => if n ≤ 255 then some n else none
  | _ => none

/-- `[u8; 32]`: an array of exactly 32 bytes. -/
def jBytes32 (j : Json) : Option Bytes32 :=
  match j with
  | .arr items =>
    match items.mapM jByte with
    | some bytes => if bytes.length = 32 then some bytes else none
    | none => none
  | _ => none

def hexPairsToBytes : List Char → Option (List Nat)
  | [] => some []
  | [_] => none
  | c1 :: c2 :: cs =>
    match hexDigitVal c1, hexDigitVal c2, hexPairsToBytes cs with
    | some d1, some d2, some bs => some ((d1 * 16 + d2) :: bs)
    | _, _, _ => none

/-- `Address` (`H160`): a string `0x` followed by exactly 40 hex digits. -/
def jAddress (j : Json) : Option Address :=
  match j with
  | .str s =>
    match s.data with
    | '0' :: 'x' :: hexDigits =>
      if hexDigits.length = 40 then hexPairsToBytes hexDigits else none
    | _ => none
  | _ => none

def jString : Json → Option String
  | .str s => some s
  | _ => none

def jBool : Json → Option Bool
  | .jbool b => some b
  | _ => none

def hexDigitsVal : List Char → Nat → Option Nat
  | [], acc => some acc
  | c :: cs, acc =>
    match hexDigitVal c with
    | some d => hexDigitsVal cs (acc * 16 + d)
    | none => none

/-- A web3 `U64` map key: a string `0x` plus at least one hex digit, value
below `2^64`. -/
def jU64Key (s : String) : Option Nat :=
  match s.data with
  | '0' :: 'x' :: c :: cs =>
    match hexDigitsVal (c :: cs) 0 with
    | some n => if n < 2 ^ 64 then some n else none
    | none => none
  | _ => none

/-- Derived `Deserialize` for `ProofEvent`. -/
def ProofEvent.fromJson : Json → Option ProofEvent
  | .obj fields => do
    let data_owner ← jField fields "data_owner" >>= jAddress
    let kilt_address ← jField fields "kilt_address" >>= jBytes32
    let attester ← jField fields "attester" >>= jBytes32
    let c_type ← jField fields "c_type" >>= jBytes32
    let program_hash ← jField fields "program_hash" >>= jBytes32
    let field_name ← jField fields "field_name" >>= jString
    let proof_cid ← jField fields "proof_cid" >>= jString
    let request_hash ← jField fields "request_hash" >>= jBytes32
    let root_hash ← jField fields "root_hash" >>= jBytes32
    let expect_result ← jField fields "expect_result" >>= jBool
    pure { data_owner, kilt_address, attester, c_type, program_hash,
           field_name, proof_cid, request_hash, root_hash, expect_result }
  | _ => none

/-- `BTreeMap::insert` on the ordered association-list model: place the key
at its ascending position, replacing the value of an equal key. -/
def btreeInsert (k : Nat) (v : List ProofEvent) : EventResult → EventResult
  | [] => [(k, v)]
  | kv2 :: rest =>
    if k < kv2.1 then (k, v) :: kv2 :: rest
    else if k = kv2.1 then (k, v) :: rest
    else kv2 :: btreeInsert k v rest

/-- Derived `Deserialize` for `EventResult`: each object entry's key parses
as a `U64`, its value as a `Vec<ProofEvent>`; entries are inserted into the
map in arrival order. -/
def EventResult.fromJson : Json → Option EventResult
  | .obj fields =>
    fields.foldlM
      (fun acc kv => do
        let k ← jU64Key kv.1
        let evs ←
          match kv.2 with
          | .arr items => items.mapM ProofEvent.fromJson
          | _ => none
        pure (btreeInsert k evs acc))
      []
  | _ => none

/-- `JsonParse::try_from_bytes` for `EventResult`
(`serde_json::from_slice`). -/
def EventResult.try_from_bytes (s : String) : Option EventResult :=
  parseJson s >>= EventResult.fromJson

/-! ## Concrete fixtures (used by witnesses and the round-trip test input) -/

/-- The input of `fake_event_result_parse_should_work`: one default
`ProofEvent` at block-number key 1. -/
def fakeEventResult : EventResult := [(1, [ProofEvent.default0])]

/-- The JSON literal asserted by `fake_event_result_parse_should_work`
(`src/primitives/src/lib.rs` line 189). -/
def fakeLiteral : String :=
  "\x7b\"0x1\":[\x7b\"data_owner\":\"0x0000000000000000000000000000000000000000\",\"kilt_address\":[0,0,0,0,0,0,0,0,0,0,0,0,0,0,0,0,0,0,0,0,0,0,0,0,0,0,0,0,0,0,0,0],\"attester\":[0,0,0,0,0,0,0,0,0,0,0,0,0,0,0,0,0,0,0,0,0,0,0,0,0,0,0,0,0,0,0,0],\"c_type\":[0,0,0,0,0,0,0,0,0,0,0,0,0,0,0,0,0,0,0,0,0,0,0,0,0,0,0,0,0,0,0,0],\"program_hash\":[0,0,0,0,0,0,0,0,0,0,0,0,0,0,0,0,0,0,0,0,0,0,0,0,0,0,0,0,0,0,0,0],\"field_name\":\"\",\"proof_cid\":\"\",\"request_hash\":[0,0,0,0,0,0,0,0,0,0,0,0,0,0,0,0,0,0,0,0,0,0,0,0,0,0,0,0,0,0,0,0],\"root_hash\":[0,0,0,0,0,0,0,0,0,0,0,0,0,0,0,0,0,0,0,0,0,0,0,0,0,0,0,0,0,0,0,0],\"expect_result\":false\x7d]\x7d"

/-- A Rust `String` of 17 NUL bytes (valid UTF-8, byte length 17). -/
def nul17 : String := String.mk (List.replicate 17 (Char.ofNat 0))

def nul17Event : ProofEvent := { ProofEvent.default0 with field_name := nul17 }

def ageEvent : ProofEvent := { ProofEvent.default0 with field_name := "age" }

def unrevokedAttestation : Attestation :=
  ⟨List.replicate 32 1, List.replicate 32 2, false⟩

def revokedAttestation : Attestation :=
  ⟨List.replicate 32 1, List.replicate 32 2, true⟩

/-- A chain oracle whose guard reads both answer `false` and whose
submission succeeds. -/
def bothFalseChain : MoonbeamChain Unit Unit :=
  ⟨fun _ _ _ _ => .ok false, fun _ _ _ => .ok false, fun _ _ => .ok ()⟩

/-- A chain oracle whose `hasSubmitted` guard read fails. -/
def failReadChain : MoonbeamChain Unit Unit :=
  ⟨fun _ _ _ _ => .error (), fun _ _ _ => .ok false, fun _ _ => .ok ()⟩

/-! # Theorems -/

/-! ## Bounded retry (`query_attestation`) -/

theorem queryLoop_ok (reads : Nat → ReadOutcome) (fuel i : Nat)
    (d : Option Attestation) (h : reads i = .ok d) :
    queryLoop reads fuel i = (.ok d, i + 1) := by
  unfold queryLoop
  rw [h]

theorem queryLoop_err_other (reads : Nat → ReadOutcome) (fuel i : Nat)
    (e : SubxtError) (he : e ≠ .rpcRequestTimeout) (h : reads i = .err e) :
    queryLoop reads fuel i = (.error e, i + 1) := by
  unfold queryLoop
  rw [h]
  cases e with
  | rpcRequestTimeout => exact absurd rfl he
  | rpcOther => rfl
  | nonRpc => rfl

theorem queryLoop_timeout_succ (reads : Nat → ReadOutcome) (f i : Nat)
    (h : reads i = .err .rpcRequestTimeout) :
    queryLoop reads (f + 1) i = queryLoop reads f (i + 1) := by
  conv_lhs => unfold queryLoop
  rw [h]

theorem queryLoop_timeout_zero (reads : Nat → ReadOutcome) (i : Nat)
    (h : reads i = .err .rpcRequestTimeout) :
    queryLoop reads 0 i = (.error .rpcRequestTimeout, i + 1) := by
  unfold queryLoop
  rw [h]

theorem queryLoop_count_le (reads : Nat → ReadOutcome) :
    ∀ fuel i, (queryLoop reads fuel i).2 ≤ i + fuel + 1 := by
  intro fuel
  induction fuel with
  | zero =>
    intro i
    cases h : reads i with
    | ok d => rw [queryLoop_ok reads 0 i d h]
    | err e =>
      cases e with
      | rpcRequestTimeout => rw [queryLoop_timeout_zero reads i h]
      | rpcOther => rw [queryLoop_err_other reads 0 i _ (by simp) h]
      | nonRpc => rw [queryLoop_err_other reads 0 i _ (by simp) h]
  | succ f ih =>
    intro i
    cases h : reads i with
    | ok d => rw [queryLoop_ok reads (f + 1) i d h]; omega
    | err e =>
      cases e with
      | rpcRequestTimeout =>
        rw [queryLoop_timeout_succ reads f i h]
        have hrec := ih (i + 1)
        omega
      | rpcOther =>
        rw [queryLoop_err_other reads (f + 1) i _ (by simp) h]; omega
      | nonRpc =>
        rw [queryLoop_err_other reads (f + 1) i _ (by simp) h]; omega

theorem queryLoop_pre_timeout (reads : Nat → ReadOutcome) :
    ∀ fuel i j, i ≤ j → j + 1 < (queryLoop reads fuel i).2 →
      reads j = .err .rpcRequestTimeout := by
  intro fuel
  induction fuel with
  | zero =>
    intro i j hij hj
    exfalso
    cases h : reads i with
    | ok d => rw [queryLoop_ok reads 0 i d h] at hj; omega
    | err e =>
      cases e with
      | rpcRequestTimeout => rw [queryLoop_timeout_zero reads i h] at hj; omega
      | rpcOther => rw [queryLoop_err_other reads 0 i _ (by simp) h] at hj; omega
      | nonRpc => rw [queryLoop_err_other reads 0 i _ (by simp) h] at hj; omega
  | succ f ih =>
    intro i j hij hj
    cases h : reads i with
    | ok d => exfalso; rw [queryLoop_ok reads (f + 1) i d h] at hj; omega
    | err e =>
      cases e with
      | rpcRequestTimeout =>
        rcases Nat.eq_or_lt_of_le hij with rfl | hlt
        · exact h
        · rw [queryLoop_timeout_succ reads f i h] at hj
          exact ih (i + 1) j hlt hj
      | rpcOther =>
        exfalso; rw [queryLoop_err_other reads (f + 1) i _ (by simp) h] at hj; omega
      | nonRpc =>
        exfalso; rw [queryLoop_err_other reads (f + 1) i _ (by simp) h] at hj; omega

theorem queryLoop_all_timeout (reads : Nat → ReadOutcome)
    (h : ∀ j, reads j = .err .rpcRequestTimeout) :
    ∀ fuel i, queryLoop reads fuel i = (.error .rpcRequestTimeout, i + fuel + 1) := by
  intro fuel
  induction fuel with
  | zero => intro i; rw [queryLoop_timeout_zero reads i (h i)]
  | succ f ih =>
    intro i
    have harith : i + 1 + f + 1 = i + (f + 1) + 1 := by omega
    rw [queryLoop_timeout_succ reads f i (h i), ih (i + 1), harith]

theorem query_attestation_count (reads : Nat → ReadOutcome) :
    (query_attestation reads).2 = (queryLoop reads MAX_RETRY_TIMES 0).2 := by
  rcases h : queryLoop reads MAX_RETRY_TIMES 0 with ⟨r, n⟩
  cases r <;> simp [query_attestation, h]

/-- C3: the attestation-storage read of `query_attestation` is retried only
on an RPC request-timeout error — every read before the last returned a
timeout — and the number of retries is capped at `MAX_RETRY_TIMES = 5` (so
at most 6 reads in all); under persistent timeouts it performs the initial
read plus exactly 5 retries and then returns the timeout error, while a
non-timeout error on the first read is returned immediately with zero
retries. -/
theorem query_attestation_retry_policy (reads : Nat → ReadOutcome) :
    (∀ e, e ≠ SubxtError.rpcRequestTimeout → reads 0 = .err e →
      query_attestation reads = (.error e, 1)) ∧
    ((∀ j, reads j = .err .rpcRequestTimeout) →
      query_attestation reads = (.error .rpcRequestTimeout, MAX_RETRY_TIMES + 1)) ∧
    (query_attestation reads).2 ≤ MAX_RETRY_TIMES + 1 ∧
    (∀ j, j + 1 < (query_attestation reads).2 → reads j = .err .rpcRequestTimeout) := by
  refine ⟨?_, ?_, ?_, ?_⟩
  · intro e he h0
    unfold query_attestation
    rw [queryLoop_err_other reads MAX_RETRY_TIMES 0 e he h0]
  · intro h
    have hall := queryLoop_all_timeout reads h MAX_RETRY_TIMES 0
    unfold query_attestation
    rw [hall]
    simp
  · have h1 := queryLoop_count_le reads MAX_RETRY_TIMES 0
    have h2 := query_attestation_count reads
    omega
  · intro j hj
    rw [query_attestation_count reads] at hj
    exact queryLoop_pre_timeout reads MAX_RETRY_TIMES 0 j (Nat.zero_le j) hj

theorem query_attestation_retry_policy_witness :
    query_attestation (fun _ => ReadOutcome.err .rpcRequestTimeout) =
      (.error .rpcRequestTimeout, MAX_RETRY_TIMES + 1) :=
  (query_attestation_retry_policy (fun _ => ReadOutcome.err .rpcRequestTimeout)).2.1
    (fun _ => rfl)

/-- C5: when the first storage read succeeds, `query_attestation` returns
`Ok` of `map_or_else(|| false, |detail| !detail.revoked)`: `Ok(false)` when
no record exists (absence is not an error), `Ok(false)` when the record is
revoked, `Ok(true)` when a record exists unrevoked — after exactly one
read. -/
theorem query_attestation_validity (reads : Nat → ReadOutcome)
    (d : Option Attestation) (h : reads 0 = .ok d) :
    query_attestation reads = (.ok (attestationIsValid d), 1) ∧
    (d = none → query_attestation reads = (.ok false, 1)) ∧
    (∀ a, d = some a → a.revoked = true → query_attestation reads = (.ok false, 1)) ∧
    (∀ a, d = some a → a.revoked = false → query_attestation reads = (.ok true, 1)) := by
  have hq : query_attestation reads = (.ok (attestationIsValid d), 1) := by
    unfold query_attestation
    rw [queryLoop_ok reads MAX_RETRY_TIMES 0 d h]
  refine ⟨hq, ?_, ?_, ?_⟩
  · rintro rfl; simpa [attestationIsValid] using hq
  · rintro a rfl ha; simpa [attestationIsValid, ha] using hq
  · rintro a rfl ha; simpa [attestationIsValid, ha] using hq

theorem query_attestation_validity_witness :
    query_attestation (fun _ => ReadOutcome.ok (some unrevokedAttestation)) = (.ok true, 1) :=
  ((query_attestation_validity (fun _ => ReadOutcome.ok (some unrevokedAttestation))
    (some unrevokedAttestation) rfl).2.2.2) unrevokedAttestation rfl rfl

/-! ## Attestation gate in the verifier -/

/-- C4: an event whose attestation record is revoked yields a failing
verification outcome regardless of the proof result (`verifierOutcome` is
`false` for every proof result), and `VerifyResult::update_from_attestation`
refuses the revoked record with an error rather than producing an updated
(passing) result. -/
theorem revoked_attestation_forces_fail (proofPassed : Bool) (a : Attestation)
    (v : VerifyResult) (h : a.revoked = true) :
    verifierOutcome proofPassed (some a) = false ∧
    VerifyResult.update_from_attestation v a = .error () := by
  constructor
  · simp [verifierOutcome, attestationIsValid, h]
  · simp [VerifyResult.update_from_attestation, h]

theorem revoked_attestation_forces_fail_witness :
    verifierOutcome true (some revokedAttestation) = false ∧
    VerifyResult.update_from_attestation default revokedAttestation = .error () :=
  revoked_attestation_forces_fail true revokedAttestation default rfl

/-! ## Event scanner -/

/-- C6: `scan_events` first clamps `start` to `best` when `start > best`
(without erroring) and computes `end = min(start + span, best)`: for
`start ≤ best` the returned end satisfies `end - start ≤ span` and
`end ≤ best`; for `start > best` the call behaves exactly as if
`start = best`, producing `end = best`. -/
theorem scan_events_window (span start best : Nat) :
    (start ≤ best →
      scanEnd span start best - start ≤ span ∧ scanEnd span start best ≤ best) ∧
    (start > best →
      clampStart start best = best ∧ scanEnd span start best = best ∧
      ∀ (E : Type) (rpc : Nat → Nat → Except E (List (ProofEvent × Option Nat))),
        scan_events span start best rpc = scan_events span best best rpc) := by
  constructor
  · intro hle
    unfold scanEnd clampStart
    split_ifs <;> omega
  · intro hgt
    have hc : clampStart start best = best := by simp [clampStart, hgt]
    have hc2 : clampStart best best = best := by simp [clampStart]
    have he : scanEnd span start best = best := by
      unfold scanEnd
      rw [hc]
      split_ifs <;> omega
    have he2 : scanEnd span start best = scanEnd span best best := by
      unfold scanEnd
      rw [hc, hc2]
    have he3 : scanEnd span best best = best := he2 ▸ he
    refine ⟨hc, he, ?_⟩
    intro E rpc
    simp only [scan_events, hc, hc2, he, he3]

theorem scan_events_window_witness :
    scanEnd 10 5 7 - 5 ≤ 10 ∧ scanEnd 10 5 7 ≤ 7 :=
  (scan_events_window 10 5 7).1 (by decide)

/-- C7: every successful `scan_events` call returns the new cursor value
`end` — with `None` in place of events exactly when zero events matched —
and every failing call returns `(Some(start), error)` carrying the
(clamped) window start, recording no partial progress. -/
theorem scan_events_cursor (E : Type) (span start best : Nat)
    (rpc : Nat → Nat → Except E (List (ProofEvent × Option Nat))) :
    (∀ res, rpc (clampStart start best) (scanEnd span start best) = .ok res →
      ∃ evs, scan_events span start best rpc = .ok (evs, scanEnd span start best) ∧
        (evs = none ↔ res = [])) ∧
    (∀ err, rpc (clampStart start best) (scanEnd span start best) = .error err →
      scan_events span start best rpc = .error (some (clampStart start best), err)) := by
  constructor
  · intro res h
    cases res with
    | nil => exact ⟨none, by simp [scan_events, h], by simp⟩
    | cons x xs =>
      refine ⟨some ((x :: xs).map (fun p => setBlockNumber p.1 p.2)), ?_, by simp⟩
      simp [scan_events, h]
  · intro err h
    simp [scan_events, h]

theorem scan_events_cursor_witness :
    ∃ evs, scan_events 10 0 100
        (fun _ _ => (.ok [] : Except Unit (List (ProofEvent × Option Nat)))) =
        .ok (evs, scanEnd 10 0 100) ∧
      (evs = none ↔ ([] : List (ProofEvent × Option Nat)) = []) :=
  (scan_events_cursor Unit 10 0 100
    (fun _ _ => (.ok [] : Except Unit (List (ProofEvent × Option Nat))))).1 [] rfl

/-! ## Submitter -/

/-- C1: for the result at the head of the batch, when both idempotency-guard
reads succeed, a submission transaction is attempted iff `hasSubmitted` and
`isFinished` both returned false; if either returned true the result is
skipped as a no-op — the call is identical to processing the remaining
batch — rather than an error. -/
theorem submit_txs_guard_iff (S E : Type) (chain : MoonbeamChain S E)
    (keeper_address : Address) (v : VerifyResult) (rest : List VerifyResult)
    (s : S) (hs fin : Bool)
    (h1 : chain.hasSubmitted s keeper_address v.data_owner v.request_hash = .ok hs)
    (h2 : chain.isFinished s v.data_owner v.request_hash = .ok fin) :
    ((hs = true ∨ fin = true) →
      submit_txs chain keeper_address (v :: rest) s =
        submit_txs chain keeper_address rest s) ∧
    (hs = false → fin = false →
      ∃ tail, (submit_txs chain keeper_address (v :: rest) s).1 = v :: tail) := by
  constructor
  · intro hor
    have hcond : (!hs && !fin) = false := by
      rcases hor with rfl | rfl <;> simp
    simp [submit_txs, h1, h2, hcond]
  · rintro rfl rfl
    simp only [submit_txs, h1, h2]
    cases hsub : chain.submit s v with
    | error e => exact ⟨[], by simp [hsub]⟩
    | ok s2 =>
      exact ⟨(submit_txs chain keeper_address rest s2).1, by simp [hsub]⟩

theorem submit_txs_guard_iff_witness :
    ∃ tail, (submit_txs bothFalseChain [] [default] ()).1 =
      (default : VerifyResult) :: tail :=
  (submit_txs_guard_iff Unit Unit bothFalseChain [] default [] () false false
    rfl rfl).2 rfl rfl

/-- C8: any guard-read or submission failure in `submit_txs` aborts the
remaining batch immediately and returns an error carrying the failing
result's block number; a guard-read failure aborts before any submission is
attempted (the attempted-submission trace is empty), and a submission
failure aborts after that single attempt. -/
theorem submit_txs_abort_on_failure (S E : Type) (chain : MoonbeamChain S E)
    (keeper_address : Address) (v : VerifyResult) (rest : List VerifyResult) (s : S) :
    (∀ e, chain.hasSubmitted s keeper_address v.data_owner v.request_hash = .error e →
      submit_txs chain keeper_address (v :: rest) s = ([], .error (some v.number, e))) ∧
    (∀ b e, chain.hasSubmitted s keeper_address v.data_owner v.request_hash = .ok b →
      chain.isFinished s v.data_owner v.request_hash = .error e →
      submit_txs chain keeper_address (v :: rest) s = ([], .error (some v.number, e))) ∧
    (∀ e, chain.hasSubmitted s keeper_address v.data_owner v.request_hash = .ok false →
      chain.isFinished s v.data_owner v.request_hash = .ok false →
      chain.submit s v = .error e →
      submit_txs chain keeper_address (v :: rest) s = ([v], .error (some v.number, e))) := by
  refine ⟨?_, ?_, ?_⟩
  · intro e h1
    simp [submit_txs, h1]
  · intro b e h1 h2
    simp [submit_txs, h1, h2]
  · intro e h1 h2 h3
    simp [submit_txs, h1, h2, h3]

theorem submit_txs_abort_on_failure_witness :
    submit_txs failReadChain [] [default] () =
      ([], .error (some (default : VerifyResult).number, ())) :=
  (submit_txs_abort_on_failure Unit Unit failReadChain [] default [] ()).1 () rfl

/-! ## Verifier stage commit discipline -/

/-- C2: in the `task_verify` loop body, the inbound message's `commit` is
invoked iff the serialized batch of verify-results was successfully sent to
the downstream queue; on a send failure the stage returns
`(None, error)` with the inbound message uncommitted. -/
theorem task_verify_commit_iff_send (ER VR Bytes E : Type)
    (parse : Except E ER) (verify : ER → Except (Nat × E) (List VR))
    (serialize : List VR → Except E Bytes) (send : Bytes → Except E Unit)
    (commit : Except E Unit) :
    ((taskVerifyStep parse verify serialize send commit).1 = true ↔
      ∃ er res bytes, parse = .ok er ∧ verify er = .ok res ∧
        serialize res = .ok bytes ∧ send bytes = .ok ()) ∧
    (∀ er res bytes e, parse = .ok er → verify er = .ok res →
      serialize res = .ok bytes → send bytes = .error e →
      taskVerifyStep parse verify serialize send commit =
        (false, .error (none, e))) := by
  constructor
  · cases hp : parse with
    | error e => simp [taskVerifyStep, hp]
    | ok er =>
      cases hv : verify er with
      | error be => simp [taskVerifyStep, hp, hv]
      | ok res =>
        cases hs : serialize res with
        | error e => simp [taskVerifyStep, hp, hv, hs]
        | ok bytes =>
          cases hd : send bytes with
          | error e => simp [taskVerifyStep, hp, hv, hs, hd]
          | ok u =>
            cases u
            cases hc : commit with
            | error e2 => simp [taskVerifyStep, hp, hv, hs, hd, hc]
            | ok u2 => cases u2; simp [taskVerifyStep, hp, hv, hs, hd, hc]
  · intro er res bytes e hp hv hs hd
    simp [taskVerifyStep, hp, hv, hs, hd]

theorem task_verify_commit_iff_send_witness :
    @taskVerifyStep Unit Unit Unit Unit (.ok ()) (fun _ => .ok [])
      (fun _ => .ok ()) (fun _ => .error ()) (.ok ()) =
      (false, .error (none, ())) :=
  (task_verify_commit_iff_send Unit Unit Unit Unit (.ok ()) (fun _ => .ok [])
    (fun _ => .ok ()) (fun _ => .error ()) (.ok ())).2 () [] () () rfl rfl rfl rfl

/-! ## Queue payload round-trip -/

set_option maxRecDepth 100000

/-- C9: serializing the `EventResult` holding one default `ProofEvent` at
block-number key 1 produces exactly the canonical JSON literal of
`fake_event_result_parse_should_work` — key `"0x1"`, the address as a
`0x`-prefixed hex string, each `Bytes32` as an array of 32 decimal byte
values, `expect_result` as `false` — and deserializing that literal yields
a value equal to the original. -/
theorem fake_event_result_roundtrip :
    EventResult.into_bytes fakeEventResult = fakeLiteral ∧
    EventResult.try_from_bytes fakeLiteral = some fakeEventResult := by
  constructor <;> decide

/-! ## `public_inputs` partiality -/

theorem hexVal_hexChar : ∀ d < 16, hexDigitVal (hexDigitChar d) = some d := by decide

theorem hexChar_ne_plus : ∀ d < 16, hexDigitChar d ≠ '+' := by decide

theorem utf8Bytes_lt (c : Char) : ∀ b ∈ utf8Bytes c, b < 256 := by
  intro b hb
  have hc : c.toNat < 1114112 := by
    have h := c.valid
    simp only [UInt32.isValidChar, Nat.isValidChar] at h
    simp only [Char.toNat]
    omega
  simp only [utf8Bytes] at hb
  split_ifs at hb with h1 h2 h3
  · simp only [List.mem_singleton] at hb; omega
  · simp only [List.mem_cons, List.not_mem_nil, or_false] at hb
    rcases hb with rfl | rfl <;> omega
  · simp only [List.mem_cons, List.not_mem_nil, or_false] at hb
    rcases hb with rfl | rfl | rfl <;> omega
  · simp only [List.mem_cons, List.not_mem_nil, or_false] at hb
    rcases hb with rfl | rfl | rfl | rfl <;> omega

theorem strBytes_lt (s : String) : ∀ b ∈ strBytes s, b < 256 := by
  intro b hb
  simp only [strBytes, List.mem_bind] at hb
  obtain ⟨c, _, hc⟩ := hb
  exact utf8Bytes_lt c b hc

theorem hexEncodeChars_cons (b : Nat) (l : List Nat) :
    hexEncodeChars (b :: l) =
      hexDigitChar (b / 16) :: hexDigitChar (b % 16) :: hexEncodeChars l := by
  simp [hexEncodeChars]

theorem foldl_be_ge (l : List Nat) :
    ∀ acc, acc ≤ l.foldl (fun a b => a * 256 + b) acc := by
  induction l with
  | nil => intro acc; simp
  | cons b rest ih =>
    intro acc
    have h := ih (acc * 256 + b)
    simp only [List.foldl_cons]
    omega

/-- The checked digit fold of `from_str_radix` over the hex encoding of a
byte string beginning at accumulator `acc` computes the big-endian value,
failing exactly when that value reaches `2^128` (the intermediate
accumulators are monotone, so the final value overflows iff any checked
step does). -/
theorem fromStrRadix16Go_hexEncode (l : List Nat) :
    ∀ acc, (∀ b ∈ l, b < 256) → acc < U128_MOD →
    fromStrRadix16Go (hexEncodeChars l) acc =
      if U128_MOD ≤ l.foldl (fun a b => a * 256 + b) acc then none
      else some (l.foldl (fun a b => a * 256 + b) acc) := by
  induction l with
  | nil =>
    intro acc _ hacc
    simp only [hexEncodeChars, List.nil_bind, fromStrRadix16Go, List.foldl_nil]
    rw [if_neg (by omega)]
  | cons b rest ih =>
    intro acc hl hacc
    have hb : b < 256 := hl b (by simp)
    have hd1 : b / 16 < 16 := by omega
    have hd2 : b % 16 < 16 := by omega
    have e1 : hexDigitVal (hexDigitChar (b / 16)) = some (b / 16) := hexVal_hexChar _ hd1
    have e2 : hexDigitVal (hexDigitChar (b % 16)) = some (b % 16) := hexVal_hexChar _ hd2
    have hmono := foldl_be_ge rest (acc * 256 + b)
    have hstep : (acc * 16 + b / 16) * 16 + b % 16 = acc * 256 + b := by omega
    rw [hexEncodeChars_cons]
    simp only [fromStrRadix16Go, e1, e2, List.foldl_cons, hstep]
    by_cases hT : U128_MOD ≤ List.foldl (fun a b => a * 256 + b) (acc * 256 + b) rest
    · rw [if_pos hT]
      split_ifs with ha1 ha2 ha3 ha4
      · rfl
      · rfl
      · rfl
      · rfl
      · rw [ih (acc * 256 + b) (fun x hx => hl x (by simp [hx])) (by omega)]
        rw [if_pos hT]
    · rw [if_neg hT]
      have hc1 : ¬ U128_MOD ≤ acc * 16 := by omega
      have hc2 : ¬ U128_MOD ≤ acc * 16 + b / 16 := by omega
      have hc3 : ¬ U128_MOD ≤ (acc * 16 + b / 16) * 16 := by omega
      have hc4 : ¬ U128_MOD ≤ acc * 256 + b := by omega
      rw [if_neg hc1, if_neg hc2, if_neg hc3, if_neg hc4]
      rw [ih (acc * 256 + b) (fun x hx => hl x (by simp [hx])) (by omega)]
      rw [if_neg hT]

theorem foldl_be_lt (l : List Nat) :
    ∀ acc, (∀ b ∈ l, b < 256) →
      l.foldl (fun a b => a * 256 + b) acc < (acc + 1) * 256 ^ l.length := by
  induction l with
  | nil => intro acc _; simp
  | cons b rest ih =>
    intro acc hl
    have hb : b < 256 := hl b (by simp)
    have h := ih (acc * 256 + b) (fun x hx => hl x (by simp [hx]))
    simp only [List.foldl_cons, List.length_cons]
    calc List.foldl (fun a b => a * 256 + b) (acc * 256 + b) rest
        < (acc * 256 + b + 1) * 256 ^ rest.length := h
      _ ≤ (acc + 1) * 256 ^ (rest.length + 1) := by
          rw [pow_succ]
          have hle : acc * 256 + b + 1 ≤ (acc + 1) * 256 := by omega
          calc (acc * 256 + b + 1) * 256 ^ rest.length
              ≤ ((acc + 1) * 256) * 256 ^ rest.length := Nat.mul_le_mul_right _ hle
            _ = (acc + 1) * (256 ^ rest.length * 256) := by ring

theorem beVal_lt_of_short (l : List Nat) (hl : ∀ b ∈ l, b < 256)
    (hlen : l.length ≤ 16) : beVal l < U128_MOD := by
  have h := foldl_be_lt l 0 hl
  have hpow : (256 : Nat) ^ l.length ≤ 256 ^ 16 := Nat.pow_le_pow_right (by norm_num) hlen
  have hmod : (256 : Nat) ^ 16 = U128_MOD := by norm_num [U128_MOD]
  simp only [beVal]
  omega

theorem fromStrRadix16_hexEncode (l : List Nat) (hl : ∀ b ∈ l, b < 256) :
    fromStrRadix16 (hexEncodeChars l) =
      if l = [] then none
      else if U128_MOD ≤ beVal l then none
      else some (beVal l) := by
  cases l with
  | nil => rfl
  | cons b rest =>
    have hb : b < 256 := hl b (by simp)
    have hplus : hexDigitChar (b / 16) ≠ '+' := hexChar_ne_plus _ (by omega)
    rw [hexEncodeChars_cons]
    simp only [fromStrRadix16]
    rw [if_neg hplus, ← hexEncodeChars_cons]
    rw [fromStrRadix16Go_hexEncode (b :: rest) 0 hl (by norm_num [U128_MOD])]
    simp [beVal]

/-- C10 (amended): `ProofEvent::public_inputs` panics exactly when the hex
parse of `field_name` fails, i.e. iff `field_name` is empty or the
big-endian integer value of its bytes reaches `2^128` (some byte other than
the trailing 16 is nonzero); whenever the value fits — in particular for
every `field_name` of 1 to 16 bytes — it returns the one-element vector of
that big-endian value. -/
theorem public_inputs_partiality (e : ProofEvent) :
    (ProofEvent.public_inputs e = none ↔
      strBytes e.field_name = [] ∨ U128_MOD ≤ beVal (strBytes e.field_name)) ∧
    (strBytes e.field_name ≠ [] → beVal (strBytes e.field_name) < U128_MOD →
      ProofEvent.public_inputs e = some [beVal (strBytes e.field_name)]) ∧
    ((strBytes e.field_name).length ≤ 16 → beVal (strBytes e.field_name) < U128_MOD) := by
  have hl := strBytes_lt e.field_name
  have hkey := fromStrRadix16_hexEncode (strBytes e.field_name) hl
  refine ⟨?_, ?_, ?_⟩
  · simp only [ProofEvent.public_inputs, hkey]
    split_ifs with h1 h2
    · simp [h1]
    · simp [h2]
    · simp [h1, h2]
  · intro hne hlt
    simp only [ProofEvent.public_inputs, hkey, if_neg hne,
      if_neg (by omega : ¬ U128_MOD ≤ beVal (strBytes e.field_name))]
    rfl
  · intro hlen
    exact beVal_lt_of_short _ hl hlen

theorem public_inputs_partiality_witness :
    ProofEvent.public_inputs ageEvent = some [6383461] := by
  have h := (public_inputs_partiality ageEvent).2.1 (by decide) (by decide)
  exact h.trans (by decide)

/-- C10 counterexample: `nul17Event.field_name` is 17 bytes long — longer
than 16 bytes — yet `public_inputs` does not panic: its hex encoding is the
34-digit string `00…0`, which parses to 0 without overflow, so the call
returns `some [0]`. -/
theorem public_inputs_long_field_name_no_panic :
    (strBytes nul17Event.field_name).length = 17 ∧
    ProofEvent.public_inputs nul17Event = some [0] := by
  constructor <;> decide

end ZCloak
